import Mathlib

/-!
Verification development for the LifeSynced calendar store
(`shared_db.py`, `timezone_utils.py`).

Strings are modelled as `List Char` (all data in scope is ASCII, so
byte-wise SQLite BINARY collation coincides with codepoint order).
Python `datetime` values are modelled by their civil fields plus an
optional fixed UTC offset in seconds; a timezone-aware UTC datetime is
identified with its epoch second (an `Int`).
-/

namespace LifeSynced

/-- Python `str` values, modelled as lists of characters. -/
abbrev Str := List Char

/-- Decimal digit test, as in `str.isdigit` for ASCII digits. -/
def isDig (c : Char) : Bool :=
  48 ≤ c.toNat && c.toNat ≤ 57

/-- Value of one decimal digit character. -/
def digVal (c : Char) : Nat :=
  c.toNat - 48

/-- Two-digit decimal number, `none` if either character is not a digit. -/
def d2 (a b : Char) : Option Nat :=
  if isDig a && isDig b then some (10 * digVal a + digVal b) else none

/-- Four-digit decimal number, `none` if any character is not a digit. -/
def d4 (a b c d : Char) : Option Nat :=
  if isDig a && isDig b && isDig c && isDig d then
    some (1000 * digVal a + 100 * digVal b + 10 * digVal c + digVal d)
  else none

/-- Model of a Python `datetime`: civil fields plus an optional fixed
UTC offset in seconds (`none` = naive). -/
structure PyDateTime where
  year : Nat
  month : Nat
  day : Nat
  hour : Nat
  minute : Nat
  second : Nat
  off : Option Int
deriving DecidableEq

/-- Gregorian leap-year test, as in Python's `calendar`/`datetime`. -/
def isLeap (y : Nat) : Bool :=
  y % 4 = 0 && (y % 100 ≠ 0 || y % 400 = 0)

/-- Number of days in a month of a given year. -/
def daysInMonth (y m : Nat) : Nat :=
  match m with
  | 1 => 31
  | 2 => if isLeap y then 29 else 28
  | 3 => 31
  | 4 => 30
  | 5 => 31
  | 6 => 30
  | 7 => 31
  | 8 => 31
  | 9 => 30
  | 10 => 31
  | 11 => 30
  | 12 => 31
  | _ => 0

/-- Days since the Unix epoch (1970-01-01) of a civil date, the standard
era-based algorithm (equivalent to Python's `date.toordinal` shifted by
the epoch's ordinal). -/
def daysFromCivil (y m d : Nat) : Int :=
  let y' : Int := (y : Int) - (if m ≤ 2 then 1 else 0)
  let era : Int := Int.fdiv y' 400
  let yoe : Int := y' - era * 400
  let mp : Int := if 2 < m then (m : Int) - 3 else (m : Int) + 9
  let doy : Int := Int.fdiv (153 * mp + 2) 5 + (d : Int) - 1
  let doe : Int := yoe * 365 + Int.fdiv yoe 4 - Int.fdiv yoe 100 + doy
  era * 146097 + doe - 719468

/-- Civil date (year, month, day) of a count of days since the Unix
epoch; inverse of `daysFromCivil` on valid dates. -/
def civilFromDays (z : Int) : Int × Nat × Nat :=
  let z' := z + 719468
  let era := Int.fdiv z' 146097
  let doe := z' - era * 146097
  let yoe := Int.fdiv (doe - Int.fdiv doe 1460 + Int.fdiv doe 36524 - Int.fdiv doe 146096) 365
  let y := yoe + era * 400
  let doy := doe - (365 * yoe + Int.fdiv yoe 4 - Int.fdiv yoe 100)
  let mp := Int.fdiv (5 * doy + 2) 153
  let d := doy - Int.fdiv (153 * mp + 2) 5 + 1
  let m := if mp < 10 then mp + 3 else mp - 9
  ((if m ≤ 2 then y + 1 else y), m.toNat, d.toNat)

/-- Field validation performed by `datetime.fromisoformat`: constructs a
datetime only if all fields are in range. -/
def mkPyDateTime (y mo da h mi se : Nat) (off : Option Int) : Option PyDateTime :=
  if 1 ≤ y ∧ y ≤ 9999 ∧ 1 ≤ mo ∧ mo ≤ 12 ∧ 1 ≤ da ∧ da ≤ daysInMonth y mo
      ∧ h ≤ 23 ∧ mi ≤ 59 ∧ se ≤ 59 then
    some ⟨y, mo, da, h, mi, se, off⟩
  else none

/-- Offset seconds from a parsed `±HH:MM` suffix; `none` if malformed
(`datetime.timezone` accepts offsets strictly below 24 hours). -/
def mkOffset (sg o1 o2 o3 o4 : Char) : Option Int :=
  match d2 o1 o2, d2 o3 o4 with
  | some oh, some om =>
    if oh ≤ 23 ∧ om ≤ 59 then
      match sg with
      | '+' => some ((oh * 3600 + om * 60 : Nat) : Int)
      | '-' => some (-((oh * 3600 + om * 60 : Nat) : Int))
      | _ => none
    else none
  | _, _ => none

/-- Core of `datetime.fromisoformat` on the formats the module documents:
`YYYY-MM-DDTHH:MM:SS` optionally followed by a `±HH:MM` offset. -/
def fromisoformat (s : Str) : Option PyDateTime :=
  match s with
  | [y1, y2, y3, y4, '-', a1, a2, '-', b1, b2, 'T',
     h1, h2, ':', m1, m2, ':', s1, s2] =>
    match d4 y1 y2 y3 y4, d2 a1 a2, d2 b1 b2, d2 h1 h2, d2 m1 m2, d2 s1 s2 with
    | some y, some mo, some da, some h, some mi, some se =>
      mkPyDateTime y mo da h mi se none
    | _, _, _, _, _, _ => none
  | [y1, y2, y3, y4, '-', a1, a2, '-', b1, b2, 'T',
     h1, h2, ':', m1, m2, ':', s1, s2, sg, o1, o2, ':', o3, o4] =>
    match d4 y1 y2 y3 y4, d2 a1 a2, d2 b1 b2, d2 h1 h2, d2 m1 m2, d2 s1 s2,
        mkOffset sg o1 o2 o3 o4 with
    | some y, some mo, some da, some h, some mi, some se, some offs =>
      mkPyDateTime y mo da h mi se (some offs)
    | _, _, _, _, _, _, _ => none
  | _ => none

/-- `iso_str.replace('Z', '+00:00')`: every `'Z'` is replaced. -/
def replaceZ (s : Str) : Str :=
  s.flatMap (fun c => if c = 'Z' then ['+', '0', '0', ':', '0', '0'] else [c])

/-- `parse_iso_datetime` from `timezone_utils.py`: empty input gives
`none`; a trailing `Z` is rewritten to `+00:00`; malformed input gives
`none` (the `except` branch); a naive result keeps `off = none` (the
caller treats it as UTC). -/
def parse_iso_datetime (s : Str) : Option PyDateTime :=
  if s = [] then none
  else
    let s' := if s.getLast? = some 'Z' then replaceZ s else s
    fromisoformat s'

/-- `normalize_to_utc` composed with extraction of the instant: a naive
datetime is assumed UTC, an aware one is converted; either way the
resulting UTC datetime is identified with its epoch second. -/
def normalize_to_utc (dt : PyDateTime) : Int :=
  daysFromCivil dt.year dt.month dt.day * 86400
    + ((dt.hour * 3600 + dt.minute * 60 + dt.second : Nat) : Int)
    - dt.off.getD 0

/-- Decimal digit character. -/
def digitChar (d : Nat) : Char :=
  Char.ofNat (48 + d)

/-- Two-digit zero-padded decimal rendering. -/
def pad2 (n : Nat) : Str :=
  [digitChar (n / 10 % 10), digitChar (n % 10)]

/-- Four-digit zero-padded decimal rendering. -/
def pad4 (n : Nat) : Str :=
  [digitChar (n / 1000 % 10), digitChar (n / 100 % 10),
   digitChar (n / 10 % 10), digitChar (n % 10)]

/-- `datetime.isoformat()` of a timezone-aware UTC datetime given by its
epoch second: `YYYY-MM-DDTHH:MM:SS+00:00`. -/
def isoUTC (t : Int) : Str :=
  let days := Int.fdiv t 86400
  let sod := (t - days * 86400).toNat
  let (y, m, d) := civilFromDays days
  pad4 y.toNat ++ '-' :: pad2 m ++ '-' :: pad2 d
    ++ 'T' :: pad2 (sod / 3600) ++ ':' :: pad2 (sod % 3600 / 60)
    ++ ':' :: pad2 (sod % 60) ++ ['+', '0', '0', ':', '0', '0']

/-- SQLite BINARY-collation `<=` on text (byte-wise; codepoint order on
the ASCII data in scope). -/
def strLe : Str → Str → Bool
  | [], _ => true
  | _ :: _, [] => false
  | a :: as, b :: bs => if a = b then strLe as bs else decide (a < b)

/-- SQLite BINARY-collation `<` on text. -/
def strLt : Str → Str → Bool
  | [], [] => false
  | [], _ :: _ => true
  | _ :: _, [] => false
  | a :: as, b :: bs => if a = b then strLt as bs else decide (a < b)

/-- One row of the `appointments` table. Every column except the primary
key is nullable, hence `Option`-typed. -/
structure Row where
  id : Str
  subject : Option Str
  start_time : Option Str
  end_time : Option Str
  location : Option Str
  organizer_email : Option Str
  organizer_name : Option Str
  attendees : Option Str
  body_preview : Option Str
  is_all_day : Option Int
  source : Option Str
  created_at : Option Str
  updated_at : Option Str
deriving DecidableEq

/-- One candidate event dictionary handed to `save_appointments`; a
`none` field models an absent key, so `event_data.get(k, d)` is
`field.getD d`. -/
structure Candidate where
  id : Option Str
  subject : Option Str
  start_time : Option Str
  end_time : Option Str
  location : Option Str
  organizer_email : Option Str
  organizer_name : Option Str
  attendees : Option Str
  body_preview : Option Str
  is_all_day : Option Int
  source : Option Str
deriving DecidableEq

/-- The `deduplication_rules` dictionary after the `.get` defaults of
lines 167-170 of `shared_db.py`: `skip_same_source` (default `False`),
`precedence` (a source-to-priority mapping, default empty) and `source`
(default `''`). -/
structure DedupRules where
  skip_same_source : Bool
  precedence : List (Str × Int)
  source : Str
deriving DecidableEq

/-- One row of `ignored_base_ids`. -/
structure BaseIgnore where
  base_id : Str
  subject : Str
  ignored_at : Str
  reason : Str
deriving DecidableEq

/-- One row of `ignored_event_ids`. -/
structure EvIgnore where
  event_id : Str
  subject : Str
  start_time : Str
  ignored_at : Str
  reason : Str
deriving DecidableEq

/-- The persisted store: the three relations of the SQLite file, each as
a list of rows in rowid order (inserts append). -/
structure Store where
  appointments : List Row
  ignored_base : List BaseIgnore
  ignored_events : List EvIgnore
deriving DecidableEq

/-- Python truthiness of a string. -/
def pyT (s : Str) : Bool :=
  s ≠ []

/-- Python truthiness of an optional string (`None` and `''` falsy). -/
def pyTO (s : Option Str) : Bool :=
  match s with
  | some s => s ≠ []
  | none => false

/-- `precedence.get(src, 0)` on the source-to-priority mapping. -/
def precOf (prec : List (Str × Int)) (src : Str) : Int :=
  match prec.find? (fun p => p.1 = src) with
  | some p => p.2
  | none => 0

/-- The Python-side scan of `find_duplicate` (lines 137-152 of
`shared_db.py`): first prefiltered row passing the exclude-id check, the
strict 60-second UTC-difference check and the organizer comparison wins;
a row whose stored time does not parse is skipped. -/
def findDupScan (startUtc : Int) (organizer_email : Str) (exclude_id : Option Str) :
    List Row → Option Str
  | [] => none
  | r :: rs =>
    if exclude_id = some r.id then findDupScan startUtc organizer_email exclude_id rs
    else
      match parse_iso_datetime (r.start_time.getD []) with
      | none => findDupScan startUtc organizer_email exclude_id rs
      | some rdt =>
        if (startUtc - normalize_to_utc rdt).natAbs < 60 then
          if organizer_email = (r.organizer_email.getD []) then some r.id
          else findDupScan startUtc organizer_email exclude_id rs
        else findDupScan startUtc organizer_email exclude_id rs

/-- The SQL prefilter of `find_duplicate`: exact `subject` and `source`
match, stored `start_time` string between the rendered window bounds,
and (when `exclude_id` is truthy) `id != exclude_id`. -/
def dupPrefilter (subject source ws we : Str) (exclude_id : Option Str) (r : Row) : Bool :=
  r.subject = some subject && r.source = some source &&
    (match r.start_time with
     | some s => strLe ws s && strLe s we
     | none => false) &&
    (match exclude_id with
     | some ex => if ex ≠ [] then decide (r.id ≠ ex) else true
     | none => true)

/-- `CalendarDatabase.find_duplicate`: parse the candidate time (on
failure report no duplicate), render the ±60-second window as UTC
isoformat strings, prefilter rows by subject/source/window/exclude-id,
then scan for the first fine-grained match. The surrounding
`try/except` returns `none` on any internal failure; the embedding is a
total function. -/
def find_duplicate (db : List Row) (subject start_time organizer_email source : Str)
    (exclude_id : Option Str) : Option Str :=
  match parse_iso_datetime start_time with
  | none => none
  | some dt =>
    let startUtc := normalize_to_utc dt
    let ws := isoUTC (startUtc - 60)
    let we := isoUTC (startUtc + 60)
    findDupScan startUtc organizer_email exclude_id
      (db.filter (dupPrefilter subject source ws we exclude_id))

/-- The UPDATE of lines 206-225 / 252-271: every mutable column is
overwritten with the candidate's value under the dictionary defaults;
`id` and `created_at` are not in the SET list; `updated_at` becomes the
batch timestamp. -/
def updRow (r : Row) (c : Candidate) (nowS : Str) : Row :=
  { r with
    subject := some (c.subject.getD [])
    start_time := some (c.start_time.getD [])
    end_time := some (c.end_time.getD [])
    location := some (c.location.getD [])
    organizer_email := some (c.organizer_email.getD [])
    organizer_name := some (c.organizer_name.getD [])
    attendees := some (c.attendees.getD ('[' :: [']']))
    body_preview := some (c.body_preview.getD [])
    is_all_day := some (c.is_all_day.getD 0)
    source := some (c.source.getD [])
    updated_at := some nowS }

/-- The INSERT of lines 282-301: a fresh row under the candidate's own
id with `created_at = updated_at = now`. -/
def newRow (eid : Str) (c : Candidate) (nowS : Str) : Row :=
  { id := eid
    subject := some (c.subject.getD [])
    start_time := some (c.start_time.getD [])
    end_time := some (c.end_time.getD [])
    location := some (c.location.getD [])
    organizer_email := some (c.organizer_email.getD [])
    organizer_name := some (c.organizer_name.getD [])
    attendees := some (c.attendees.getD ('[' :: [']']))
    body_preview := some (c.body_preview.getD [])
    is_all_day := some (c.is_all_day.getD 0)
    source := some (c.source.getD [])
    created_at := some nowS
    updated_at := some nowS }

/-- Lines 239-241: `SELECT source FROM appointments WHERE id = ?` for
the duplicate's id, with `''` when no row comes back. -/
def dupSourceOf (db : List Row) (dupId : Str) : Option Str :=
  match db.find? (fun r => r.id = dupId) with
  | some r => r.source
  | none => some []

/-- Processing of a single candidate by `save_appointments` (the body of
the `for` loop, lines 176-302): returns the new appointment list and the
increments of `saved_count` and `updated_count`. The branch structure
mirrors the source exactly; in particular, in the duplicate path the
equal-priority case with a failing `skip_same_source` test falls through
to the INSERT, and an untruthy source pair skips. -/
def processOne (db : List Row) (rules : DedupRules) (nowS : Str) (c : Candidate) :
    List Row × Nat × Nat :=
  match c.id with
  | none => (db, 0, 0)
  | some eid =>
    if eid = [] then (db, 0, 0)
    else
      match db.find? (fun r => r.id = eid) with
      | some ex =>
        if (if pyT rules.source && pyTO ex.source then
              if precOf rules.precedence rules.source
                  < precOf rules.precedence (ex.source.getD []) then false
              else if precOf rules.precedence (ex.source.getD [])
                  < precOf rules.precedence rules.source then true
              else if rules.skip_same_source && rules.source = ex.source.getD [] then false
              else true
            else true) then
          (db.map (fun r => if r.id = eid then updRow r c nowS else r), 0, 1)
        else (db, 0, 0)
      | none =>
        match find_duplicate db (c.subject.getD []) (c.start_time.getD [])
            (c.organizer_email.getD []) (c.source.getD []) (some eid) with
        | some dupId =>
          if pyT rules.source && pyTO (dupSourceOf db dupId) then
            if precOf rules.precedence rules.source
                < precOf rules.precedence ((dupSourceOf db dupId).getD []) then (db, 0, 0)
            else if precOf rules.precedence ((dupSourceOf db dupId).getD [])
                < precOf rules.precedence rules.source then
              (db.map (fun r => if r.id = dupId then updRow r c nowS else r), 0, 1)
            else if rules.skip_same_source && rules.source = (dupSourceOf db dupId).getD [] then
              (db, 0, 0)
            else (db ++ [newRow eid c nowS], 1, 0)
          else (db, 0, 0)
        | none => (db ++ [newRow eid c nowS], 1, 0)

/-- The candidate loop of `save_appointments`, threading the appointment
list and accumulating `(saved_count, updated_count)`. -/
def saveLoopP (rules : DedupRules) (nowS : Str) : List Row → List Candidate →
    List Row × Nat × Nat
  | db, [] => (db, 0, 0)
  | db, c :: cs =>
    let r1 := processOne db rules nowS c
    let r2 := saveLoopP rules nowS r1.1 cs
    (r2.1, r1.2.1 + r2.2.1, r1.2.2 + r2.2.2)

/-- `CalendarDatabase.save_appointments` on the success path: the write
timestamp `now = datetime.now(timezone.utc).isoformat()` is a parameter
of the shallow embedding. -/
def save_appointments (db : List Row) (rules : DedupRules) (nowS : Str)
    (appointments : List Candidate) : List Row × Nat × Nat :=
  saveLoopP rules nowS db appointments

/-- Storage-failure model for `save_appointments` (§7 of the spec): a
single candidate's write may raise a storage-engine error. `fail = true`
makes the candidate's write (UPDATE or INSERT — at most one executes per
candidate) raise; the loop body has no `try/except`, so the error
propagates. -/
def processOneF (db : List Row) (rules : DedupRules) (nowS : Str) (c : Candidate)
    (fail : Bool) : Except Unit (List Row × Nat × Nat) :=
  match c.id with
  | none => Except.ok (db, 0, 0)
  | some eid =>
    if eid = [] then Except.ok (db, 0, 0)
    else
      match db.find? (fun r => r.id = eid) with
      | some ex =>
        if (if pyT rules.source && pyTO ex.source then
              if precOf rules.precedence rules.source
                  < precOf rules.precedence (ex.source.getD []) then false
              else if precOf rules.precedence (ex.source.getD [])
                  < precOf rules.precedence rules.source then true
              else if rules.skip_same_source && rules.source = ex.source.getD [] then false
              else true
            else true) then
          if fail then Except.error ()
          else Except.ok (db.map (fun r => if r.id = eid then updRow r c nowS else r), 0, 1)
        else Except.ok (db, 0, 0)
      | none =>
        match find_duplicate db (c.subject.getD []) (c.start_time.getD [])
            (c.organizer_email.getD []) (c.source.getD []) (some eid) with
        | some dupId =>
          if pyT rules.source && pyTO (dupSourceOf db dupId) then
            if precOf rules.precedence rules.source
                < precOf rules.precedence ((dupSourceOf db dupId).getD []) then
              Except.ok (db, 0, 0)
            else if precOf rules.precedence ((dupSourceOf db dupId).getD [])
                < precOf rules.precedence rules.source then
              if fail then Except.error ()
              else Except.ok
                (db.map (fun r => if r.id = dupId then updRow r c nowS else r), 0, 1)
            else if rules.skip_same_source && rules.source = (dupSourceOf db dupId).getD [] then
              Except.ok (db, 0, 0)
            else if fail then Except.error ()
            else Except.ok (db ++ [newRow eid c nowS], 1, 0)
          else Except.ok (db, 0, 0)
        | none =>
          if fail then Except.error ()
          else Except.ok (db ++ [newRow eid c nowS], 1, 0)

/-- The candidate loop under the failure model; `oracle k` says whether
candidate `k`'s write raises. An error aborts the loop, as the source
has no per-item exception handling. -/
def saveLoopF (rules : DedupRules) (nowS : Str) (oracle : Nat → Bool) :
    List Row → Nat → List Candidate → Except Unit (List Row × Nat × Nat)
  | db, _, [] => Except.ok (db, 0, 0)
  | db, k, c :: cs =>
    match processOneF db rules nowS c (oracle k) with
    | Except.error e => Except.error e
    | Except.ok r1 =>
      match saveLoopF rules nowS oracle r1.1 (k + 1) cs with
      | Except.error e => Except.error e
      | Except.ok r2 => Except.ok (r2.1, r1.2.1 + r2.2.1, r1.2.2 + r2.2.2)

/-- `save_appointments` under the failure model. On success the counts
and the new store are returned; on a storage failure the exception
propagates out of the `with sqlite3.connect(...)` block, which rolls the
uncommitted transaction back, so the visible store is the input store. -/
def runSaveF (db : List Row) (rules : DedupRules) (nowS : Str) (oracle : Nat → Bool)
    (appointments : List Candidate) : Except Unit (Nat × Nat) × List Row :=
  match saveLoopF rules nowS oracle db 0 appointments with
  | Except.ok (db', s, u) => (Except.ok (s, u), db')
  | Except.error e => (Except.error e, db)

/-- Python `event_id.split('_')`. -/
def pySplit (sep : Char) : Str → List Str
  | [] => [[]]
  | c :: cs =>
    if c = sep then [] :: pySplit sep cs
    else
      match pySplit sep cs with
      | p :: ps => (c :: p) :: ps
      | [] => [[c]]

/-- Python `'_'.join(parts)`. -/
def joinU (sep : Char) : List Str → Str
  | [] => []
  | [p] => p
  | p :: ps => p ++ sep :: joinU sep ps

/-- The timestamp-suffix test of line 449: exactly 15 characters,
`last_part[8] == 'T'`, `last_part[:8].isdigit()`, `last_part[9:].isdigit()`. -/
def validTs (s : Str) : Bool :=
  s.length = 15 && s.get? 8 = some 'T' && (s.take 8).all isDig && (s.drop 9).all isDig

/-- `CalendarDatabase.get_base_id_from_event_id`; `pySplit '_' event_id`
is the local `parts` of the source, inlined. -/
def get_base_id_from_event_id (event_id : Str) : Str :=
  if event_id.contains '_' then
    if 2 ≤ (pySplit '_' event_id).length then
      if validTs ((pySplit '_' event_id).getLast?.getD []) then
        joinU '_' (pySplit '_' event_id).dropLast
      else event_id
    else event_id
  else event_id

/-- The part of an id after its last underscore (the whole id when it
has none) — the claim-side reading of the suffix. -/
def afterLastU (s : Str) : Str :=
  (s.reverse.takeWhile (fun c => c ≠ '_')).reverse

/-- Spec-side base-id extraction, following the claim's words: when the
part after the last underscore is a well-shaped 15-character timestamp,
the suffix and its underscore are stripped; otherwise the id is
returned unchanged. -/
def specBaseId (s : Str) : Str :=
  if s.contains '_' && validTs (afterLastU s) then
    (s.reverse.drop ((afterLastU s).length + 1)).reverse
  else s

/-- Insertion step for the ORDER BY sort. -/
def insertB (le : Row → Row → Bool) (x : Row) : List Row → List Row
  | [] => [x]
  | y :: ys => if le x y then x :: y :: ys else y :: insertB le x ys

/-- Insertion sort modelling `ORDER BY start_time ASC`. -/
def insSort (le : Row → Row → Bool) : List Row → List Row
  | [] => []
  | x :: xs => insertB le x (insSort le xs)

/-- SQLite ASC ordering key on `start_time`: NULLs first, then BINARY
text order. -/
def rowLe (a b : Row) : Bool :=
  match a.start_time, b.start_time with
  | none, _ => true
  | some _, none => false
  | some x, some y => strLe x y

/-- The SQL date filter of `query_events`:
`substr(start_time, 1, 10) >= start AND substr(start_time, 1, 10) < end`
(a NULL `start_time` row never matches). -/
def rowInRange (startStr endStr : Str) (r : Row) : Bool :=
  match r.start_time with
  | some s => strLe startStr (s.take 10) && strLt (s.take 10) endStr
  | none => false

/-- The optional `AND source = ?` filter (`if source:` — applied only
for a truthy argument). -/
def srcPass (source : Option Str) (r : Row) : Bool :=
  if pyTO source then r.source = source else true

/-- An element of the list returned by `query_events`: the dictionary
built at lines 359-371. Values are Python objects that may be `None`,
hence `Option`-typed; the `or`-normalized ones are always `some`. -/
structure OutEvent where
  id : Str
  subject : Option Str
  start_time : Option Str
  end_time : Option Str
  location : Option Str
  organizer_email : Option Str
  organizer_name : Option Str
  attendees : Option Str
  body_preview : Option Str
  is_all_day : Option Int
  source : Option Str
deriving DecidableEq

/-- Python `x or d` for a nullable string `x` and string default `d`. -/
def pyOr (v : Option Str) (d : Str) : Str :=
  match v with
  | some s => if s = [] then d else s
  | none => d

/-- The output dictionary of `query_events` for one row: `location`,
`organizer_email`, `organizer_name`, `attendees`, `body_preview` and
`source` are `or`-normalized; `subject`, `start_time`, `end_time` and
`is_all_day` are passed through as stored. -/
def toOut (r : Row) : OutEvent :=
  { id := r.id
    subject := r.subject
    start_time := r.start_time
    end_time := r.end_time
    location := some (pyOr r.location [])
    organizer_email := some (pyOr r.organizer_email [])
    organizer_name := some (pyOr r.organizer_name [])
    attendees := some (pyOr r.attendees ('[' :: [']']))
    body_preview := some (pyOr r.body_preview [])
    is_all_day := r.is_all_day
    source := some (pyOr r.source []) }

/-- Start of the query window as a date string:
`(now - timedelta(days=days_back)).date().isoformat()`. -/
def dateStrOfDays (z : Int) : Str :=
  let c := civilFromDays z
  pad4 c.1.toNat ++ '-' :: pad2 c.2.1 ++ '-' :: pad2 c.2.2

/-- `start_date_str`: `(now - timedelta(days=days_back)).date().isoformat()`. -/
def windowStart (now : Int) (days_back : Nat) : Str :=
  dateStrOfDays (Int.fdiv (now - (days_back : Int) * 86400) 86400)

/-- `end_date_str`: `((now + timedelta(days=days_ahead)).date() +
timedelta(days=1)).isoformat()`. -/
def windowEnd (now : Int) (days_ahead : Nat) : Str :=
  dateStrOfDays (Int.fdiv (now + (days_ahead : Int) * 86400) 86400 + 1)

/-- `CalendarDatabase.query_events`: date-prefix window filter, optional
source filter, ORDER BY `start_time`, then suppression filtering and
output normalization. `now` is the UTC instant of the call, a parameter
of the shallow embedding. -/
def query_events (st : Store) (now : Int) (days_back days_ahead : Nat)
    (source : Option Str) : List OutEvent :=
  let startStr := windowStart now days_back
  let endStr := windowEnd now days_ahead
  let ignB := st.ignored_base.map (fun e => e.base_id)
  let ignE := st.ignored_events.map (fun e => e.event_id)
  let pref := st.appointments.filter (fun r => rowInRange startStr endStr r && srcPass source r)
  let sorted := insSort rowLe pref
  let visible := sorted.filter
    (fun r => !ignE.contains r.id && !ignB.contains (get_base_id_from_event_id r.id))
  visible.map toOut

/-- `CalendarDatabase.add_ignored_base_id`: `INSERT OR REPLACE` keyed by
`base_id` (the conflicting row is deleted, the new one appended); the
`ignored_at` timestamp is a parameter. -/
def add_ignored_base_id (st : Store) (base_id subject reason nowS : Str) : Store :=
  { st with ignored_base :=
      st.ignored_base.filter (fun e => e.base_id ≠ base_id)
        ++ [⟨base_id, subject, nowS, reason⟩] }

/-- `CalendarDatabase.remove_ignored_base_id`: `DELETE WHERE base_id = ?`. -/
def remove_ignored_base_id (st : Store) (base_id : Str) : Store :=
  { st with ignored_base := st.ignored_base.filter (fun e => e.base_id ≠ base_id) }

/-! ### Helper lemmas -/

theorem pyOr_ne_nil (v : Option Str) (d : Str) (hd : d ≠ []) : pyOr v d ≠ [] := by
  cases v with
  | none => simpa [pyOr] using hd
  | some s =>
    by_cases hs : s = []
    · simpa [pyOr, hs] using hd
    · simp [pyOr, hs]

theorem mem_insertB (le : Row → Row → Bool) (x : Row) :
    ∀ (l : List Row) (a : Row), a ∈ insertB le x l ↔ a = x ∨ a ∈ l := by
  intro l
  induction l with
  | nil => intro a; simp [insertB]
  | cons y ys ih =>
    intro a
    simp only [insertB]
    split
    · simp [List.mem_cons]
    · simp only [List.mem_cons, ih]
      tauto

theorem mem_insSort (le : Row → Row → Bool) :
    ∀ (l : List Row) (a : Row), a ∈ insSort le l ↔ a ∈ l := by
  intro l
  induction l with
  | nil => intro a; simp [insSort]
  | cons y ys ih =>
    intro a
    simp [insSort, mem_insertB, ih]

theorem findDupScan_sound (startUtc : Int) (org : Str) (exId : Option Str) :
    ∀ (l : List Row) (rid : Str), findDupScan startUtc org exId l = some rid →
      ∃ r ∈ l, rid = r.id ∧ exId ≠ some r.id := by
  intro l
  induction l with
  | nil => intro rid h; simp [findDupScan] at h
  | cons r rs ih =>
    intro rid h
    rw [findDupScan] at h
    by_cases hex : exId = some r.id
    · rw [if_pos hex] at h
      obtain ⟨r', hr', e1, e2⟩ := ih rid h
      exact ⟨r', List.mem_cons_of_mem _ hr', e1, e2⟩
    · rw [if_neg hex] at h
      cases hp : parse_iso_datetime (r.start_time.getD []) with
      | none =>
        simp only [hp] at h
        obtain ⟨r', hr', e1, e2⟩ := ih rid h
        exact ⟨r', List.mem_cons_of_mem _ hr', e1, e2⟩
      | some rdt =>
        simp only [hp] at h
        by_cases ht : (startUtc - normalize_to_utc rdt).natAbs < 60
        · rw [if_pos ht] at h
          by_cases ho : org = r.organizer_email.getD []
          · rw [if_pos ho] at h
            exact ⟨r, List.mem_cons_self _ _, (Option.some.inj h).symm, hex⟩
          · rw [if_neg ho] at h
            obtain ⟨r', hr', e1, e2⟩ := ih rid h
            exact ⟨r', List.mem_cons_of_mem _ hr', e1, e2⟩
        · rw [if_neg ht] at h
          obtain ⟨r', hr', e1, e2⟩ := ih rid h
          exact ⟨r', List.mem_cons_of_mem _ hr', e1, e2⟩

/-- The frame invariant relating the appointment list before and after a
sequence of writes carrying the timestamp `nowS`: every surviving row
either keeps the id and `created_at` of a pre-existing row, or is a
fresh insert with `created_at = updated_at = nowS`; and every row is
untouched or carries `updated_at = nowS`. -/
def FrameInv (nowS : Str) (db0 db1 : List Row) : Prop :=
  (∀ r' ∈ db1,
      (∃ r ∈ db0, r.id = r'.id ∧ r.created_at = r'.created_at) ∨
        (r'.created_at = some nowS ∧ r'.updated_at = some nowS)) ∧
    ∀ r' ∈ db1, r' ∈ db0 ∨ r'.updated_at = some nowS

theorem frameInv_refl (nowS : Str) (db : List Row) : FrameInv nowS db db := by
  exact ⟨fun r' hr' => Or.inl ⟨r', hr', rfl, rfl⟩, fun r' hr' => Or.inl hr'⟩

theorem frameInv_trans (nowS : Str) (a b c : List Row)
    (hab : FrameInv nowS a b) (hbc : FrameInv nowS b c) : FrameInv nowS a c := by
  constructor
  · intro r' hr'
    rcases hbc.1 r' hr' with ⟨r, hrb, hid, hca⟩ | hnew
    · rcases hab.1 r hrb with ⟨r0, hr0, hid0, hca0⟩ | ⟨hcb, _⟩
      · exact Or.inl ⟨r0, hr0, hid0.trans hid, hca0.trans hca⟩
      · rcases hbc.2 r' hr' with hrb' | hup
        · rcases hab.1 r' hrb' with h | h
          · exact Or.inl h
          · exact Or.inr h
        · exact Or.inr ⟨hca.symm.trans hcb, hup⟩
    · exact Or.inr hnew
  · intro r' hr'
    rcases hbc.2 r' hr' with hrb | hup
    · rcases hab.2 r' hrb with h | h
      · exact Or.inl h
      · exact Or.inr h
    · exact Or.inr hup

theorem frameInv_map_upd (nowS : Str) (db : List Row) (tid : Str) (c : Candidate) :
    FrameInv nowS db (db.map (fun r => if r.id = tid then updRow r c nowS else r)) := by
  constructor
  · intro r' hr'
    obtain ⟨r, hr, hfr⟩ := List.mem_map.1 hr'
    by_cases h : r.id = tid
    · rw [if_pos h] at hfr
      exact Or.inl ⟨r, hr, by rw [← hfr]; rfl, by rw [← hfr]; rfl⟩
    · rw [if_neg h] at hfr
      exact Or.inl ⟨r, hr, by rw [hfr], by rw [hfr]⟩
  · intro r' hr'
    obtain ⟨r, hr, hfr⟩ := List.mem_map.1 hr'
    by_cases h : r.id = tid
    · rw [if_pos h] at hfr
      exact Or.inr (by rw [← hfr]; rfl)
    · rw [if_neg h] at hfr
      exact Or.inl (hfr ▸ hr)

theorem frameInv_append_new (nowS : Str) (db : List Row) (eid : Str) (c : Candidate) :
    FrameInv nowS db (db ++ [newRow eid c nowS]) := by
  constructor
  · intro r' hr'
    rcases List.mem_append.1 hr' with h | h
    · exact Or.inl ⟨r', h, rfl, rfl⟩
    · rw [List.mem_singleton.1 h]
      exact Or.inr ⟨rfl, rfl⟩
  · intro r' hr'
    rcases List.mem_append.1 hr' with h | h
    · exact Or.inl h
    · rw [List.mem_singleton.1 h]
      exact Or.inr rfl

theorem processOne_frameInv (db : List Row) (rules : DedupRules) (nowS : Str)
    (c : Candidate) : FrameInv nowS db (processOne db rules nowS c).1 := by
  unfold processOne
  repeat' split
  all_goals
    first
      | exact frameInv_refl nowS db
      | exact frameInv_map_upd nowS db _ c
      | exact frameInv_append_new nowS db _ c

theorem saveLoopP_frameInv (rules : DedupRules) (nowS : Str) :
    ∀ (cs : List Candidate) (db : List Row),
      FrameInv nowS db (saveLoopP rules nowS db cs).1 := by
  intro cs
  induction cs with
  | nil => intro db; exact frameInv_refl nowS db
  | cons c cs ih =>
    intro db
    have h1 := processOne_frameInv db rules nowS c
    have h2 := ih (processOne db rules nowS c).1
    exact frameInv_trans nowS _ _ _ h1 h2

theorem takeWhile_append_of_all (p : Char → Bool) :
    ∀ (l1 : Str) (x : Char) (l2 : Str), (∀ c ∈ l1, p c = true) → p x = false →
      (l1 ++ x :: l2).takeWhile p = l1 := by
  intro l1
  induction l1 with
  | nil => intro x l2 _ hx; simp [List.takeWhile_cons, hx]
  | cons c cs ih =>
    intro x l2 hall hx
    have hc : p c = true := hall c (List.mem_cons_self c cs)
    simp only [List.cons_append, List.takeWhile_cons, hc, if_true]
    rw [ih x l2 (fun d hd => hall d (List.mem_cons_of_mem _ hd)) hx]

theorem afterLastU_append (B A : Str) (h : A.contains '_' = false) :
    afterLastU (B ++ '_' :: A) = A := by
  have hnot : ∀ c ∈ A.reverse, (decide (c ≠ '_')) = true := by
    intro c hcm
    have hcA : c ∈ A := List.mem_reverse.1 hcm
    by_cases hc : c = '_'
    · subst hc
      have hAc : A.contains '_' = true := List.elem_iff.2 hcA
      rw [hAc] at h
      cases h
    · simp [hc]
  unfold afterLastU
  rw [List.reverse_append, List.reverse_cons, List.append_assoc, List.singleton_append]
  rw [takeWhile_append_of_all _ A.reverse '_' B.reverse hnot (by simp)]
  exact List.reverse_reverse A

theorem beforeLast_append (B A : Str) :
    ((B ++ '_' :: A).reverse.drop (A.length + 1)).reverse = B := by
  rw [List.reverse_append, List.reverse_cons]
  have hlen : (A.reverse ++ ['_']).length = A.length + 1 := by simp
  rw [← hlen, List.drop_left, List.reverse_reverse]

theorem joinU_cons_cons (sep c : Char) (p : Str) (qs : List Str) :
    joinU sep ((c :: p) :: qs) = c :: joinU sep (p :: qs) := by
  cases qs with
  | nil => rfl
  | cons q qs' => rfl

theorem pySplit_ne_nil (sep : Char) : ∀ s : Str, pySplit sep s ≠ [] := by
  intro s
  induction s with
  | nil => simp [pySplit]
  | cons c cs ih =>
    rw [pySplit]
    split
    · simp
    · cases h : pySplit sep cs with
      | nil => exact absurd h ih
      | cons p ps => simp [h]

theorem pySplit_spec (sep : Char) : ∀ s : Str,
    (s.contains sep = false → pySplit sep s = [s]) ∧
      (s.contains sep = true →
        2 ≤ (pySplit sep s).length ∧
          ((pySplit sep s).getLast?.getD []).contains sep = false ∧
          joinU sep (pySplit sep s).dropLast ++ sep :: ((pySplit sep s).getLast?.getD []) = s) := by
  intro s
  induction s with
  | nil =>
    constructor
    · intro _; rfl
    · intro h; simp at h
  | cons c cs ih =>
    constructor
    · intro h
      simp only [List.contains_cons, Bool.or_eq_false_iff, beq_eq_false_iff_ne] at h
      obtain ⟨h1, h2⟩ := h
      rw [pySplit, if_neg (fun hc => h1 hc.symm)]
      simp only [ih.1 h2]
    · intro h
      by_cases hcs : cs.contains sep = true
      · obtain ⟨hlen, hfree, hdec⟩ := ih.2 hcs
        obtain ⟨p, q, ps', hps⟩ : ∃ p q ps', pySplit sep cs = p :: q :: ps' := by
          rcases hp2 : pySplit sep cs with _ | ⟨p, _ | ⟨q, ps'⟩⟩
          · rw [hp2] at hlen; simp at hlen
          · rw [hp2] at hlen; simp at hlen
          · exact ⟨p, q, ps', rfl⟩
        rw [hps] at hfree hdec
        by_cases hc : c = sep
        · subst hc
          rw [pySplit, if_pos rfl]
          simp only [hps]
          refine ⟨by simp, ?_, ?_⟩
          · rw [show (([] : Str) :: p :: q :: ps').getLast? = (p :: q :: ps').getLast? from rfl]
            exact hfree
          · rw [show (([] : Str) :: p :: q :: ps').dropLast = [] :: (p :: q :: ps').dropLast from rfl]
            rw [show (([] : Str) :: p :: q :: ps').getLast? = (p :: q :: ps').getLast? from rfl]
            rw [show (p :: q :: ps').dropLast = p :: (q :: ps').dropLast from rfl]
            rw [show joinU c ([] :: p :: (q :: ps').dropLast)
                  = [] ++ c :: joinU c (p :: (q :: ps').dropLast) from rfl]
            rw [show (p :: q :: ps').dropLast = p :: (q :: ps').dropLast from rfl] at hdec
            simp only [List.nil_append, List.cons_append]
            rw [hdec]
        · rw [pySplit, if_neg hc]
          simp only [hps]
          refine ⟨by simp, ?_, ?_⟩
          · rw [show ((c :: p) :: q :: ps').getLast? = (q :: ps').getLast? from rfl]
            rw [show (p :: q :: ps').getLast? = (q :: ps').getLast? from rfl] at hfree
            exact hfree
          · rw [show ((c :: p) :: q :: ps').dropLast = (c :: p) :: (q :: ps').dropLast from rfl]
            rw [show ((c :: p) :: q :: ps').getLast? = (q :: ps').getLast? from rfl]
            rw [joinU_cons_cons]
            rw [show (p :: q :: ps').dropLast = p :: (q :: ps').dropLast from rfl] at hdec
            rw [show (p :: q :: ps').getLast? = (q :: ps').getLast? from rfl] at hdec
            rw [List.cons_append, hdec]
      · have hcs' : cs.contains sep = false := by simpa using hcs
        have hc : sep = c := by
          simp only [List.contains_cons, Bool.or_eq_true, beq_iff_eq] at h
          rcases h with h | h
          · exact h
          · rw [h] at hcs'; cases hcs'
        have hps : pySplit sep cs = [cs] := ih.1 hcs'
        rw [← hc] at *
        rw [pySplit, if_pos rfl]
        simp only [hps]
        exact ⟨by simp, by simpa using hcs', rfl⟩

theorem get_base_id_eq_specBaseId (s : Str) :
    get_base_id_from_event_id s = specBaseId s := by
  by_cases hc : s.contains '_' = true
  · obtain ⟨hlen, hfree, hdec⟩ := (pySplit_spec '_' s).2 hc
    have hafter : afterLastU s = (pySplit '_' s).getLast?.getD [] := by
      have h1 := afterLastU_append (joinU '_' (pySplit '_' s).dropLast)
        ((pySplit '_' s).getLast?.getD []) hfree
      rw [hdec] at h1
      exact h1
    have hbefore :
        (s.reverse.drop (((pySplit '_' s).getLast?.getD []).length + 1)).reverse
          = joinU '_' (pySplit '_' s).dropLast := by
      have h1 := beforeLast_append (joinU '_' (pySplit '_' s).dropLast)
        ((pySplit '_' s).getLast?.getD [])
      rw [hdec] at h1
      exact h1
    unfold get_base_id_from_event_id specBaseId
    rw [if_pos hc, if_pos hlen]
    by_cases hv : validTs ((pySplit '_' s).getLast?.getD []) = true
    · have hcond : (s.contains '_' && validTs (afterLastU s)) = true := by
        rw [hafter, Bool.and_eq_true]
        exact ⟨hc, hv⟩
      rw [if_pos hv, if_pos hcond, hafter, hbefore]
    · have hcond : ¬ ((s.contains '_' && validTs (afterLastU s)) = true) := by
        rw [hafter, Bool.and_eq_true]
        intro hh
        exact hv hh.2
      rw [if_neg hv, if_neg hcond]
  · have h1 : ¬ (s.contains '_' = true) := hc
    have h2 : ¬ ((s.contains '_' && validTs (afterLastU s)) = true) := by
      rw [Bool.and_eq_true]
      intro hh
      exact hc hh.1
    unfold get_base_id_from_event_id specBaseId
    rw [if_neg h1, if_neg h2]

theorem saveLoopF_append_error (rules : DedupRules) (nowS : Str) (oracle : Nat → Bool) :
    ∀ (batch : List Candidate) (db : List Row) (k : Nat) (suffix : List Candidate),
      saveLoopF rules nowS oracle db k batch = Except.error () →
      saveLoopF rules nowS oracle db k (batch ++ suffix) = Except.error () := by
  intro batch
  induction batch with
  | nil => intro db k suffix h; simp [saveLoopF] at h
  | cons c cs ih =>
    intro db k suffix h
    rw [List.cons_append]
    rw [saveLoopF] at h ⊢
    cases hp : processOneF db rules nowS c (oracle k) with
    | error e => cases e; simp only [hp]
    | ok r1 =>
      simp only [hp] at h ⊢
      cases hl : saveLoopF rules nowS oracle r1.1 (k + 1) cs with
      | error e =>
        cases e
        simp only [ih r1.1 (k + 1) suffix hl]
      | ok r2 => simp only [hl] at h; simp at h

/-! ### Concrete fixtures for counterexamples and witnesses -/

/-- Batch write timestamp used by the concrete scenarios. -/
def nowW : Str := "2025-03-04T00:00:00+00:00".toList

/-- Candidate from source `cal1`. -/
def candCal1 : Candidate :=
  { id := some "e1".toList
    subject := some "Sync".toList
    start_time := some "2025-03-03T09:00:00Z".toList
    end_time := none
    location := none
    organizer_email := some []
    organizer_name := none
    attendees := none
    body_preview := none
    is_all_day := none
    source := some "cal1".toList }

/-- Same real event from source `cal2`, different id. -/
def candCal2 : Candidate :=
  { candCal1 with id := some "e2".toList, source := some "cal2".toList }

/-- Equal priorities for `cal1` and `cal2`, `skip_same_source = False`,
batch source `cal2`. -/
def tieRules : DedupRules :=
  { skip_same_source := false
    precedence := [("cal1".toList, 1), ("cal2".toList, 1)]
    source := "cal2".toList }

/-- `cal2` has strictly higher priority than `cal1`. -/
def overrideRules : DedupRules :=
  { skip_same_source := false
    precedence := [("cal1".toList, 1), ("cal2".toList, 2)]
    source := "cal2".toList }

/-- The stored `cal1` row for the same real event. -/
def rowCal1 : Row :=
  { id := "e1".toList
    subject := some "Sync".toList
    start_time := some "2025-03-03T09:00:00+00:00".toList
    end_time := some []
    location := some []
    organizer_email := some []
    organizer_name := some []
    attendees := some ('[' :: [']'])
    body_preview := some []
    is_all_day := some 0
    source := some "cal1".toList
    created_at := some "2025-03-01T00:00:00+00:00".toList
    updated_at := some "2025-03-01T00:00:00+00:00".toList }

/-- A `cal2`-batch candidate whose event-level `source` field is `cal1`
(the only shape under which the Duplicate Finder can see the `cal1`
row). -/
def candCal1Field : Candidate :=
  { candCal2 with source := some "cal1".toList }

/-- A stored row whose `source` is the empty string. -/
def rowEmptySource : Row :=
  { rowCal1 with id := "x1".toList, source := some [] }

/-- A candidate with empty `source` matching `rowEmptySource` in
subject, time and organizer but under a different id. -/
def candEmptySource : Candidate :=
  { candCal1 with id := some "x2".toList, source := some [] }

/-- Deduplication rules with all defaults (empty batch source, no
precedence, `skip_same_source = False`). -/
def plainRules : DedupRules :=
  { skip_same_source := false, precedence := [], source := [] }

/-- A stored row whose `start_time` carries a `-08:00` offset; its
instant equals `2025-01-01T10:00:00Z`. -/
def rowPst : Row :=
  { rowCal1 with
      id := "a1".toList
      subject := some "Meet".toList
      start_time := some "2025-01-01T02:00:00-08:00".toList
      source := some "ics".toList }

/-- A stored row with NULL `subject` and NULL `is_all_day`. -/
def rowNullSubject : Row :=
  { rowCal1 with
      id := "r6".toList
      subject := none
      is_all_day := none
      start_time := some "2025-06-15T10:00:00+00:00".toList }

/-- Store holding only `rowNullSubject`. -/
def nullSubjectStore : Store :=
  { appointments := [rowNullSubject], ignored_base := [], ignored_events := [] }

/-- Query instant 2025-06-15T00:00:00Z. -/
def nowJun : Int := daysFromCivil 2025 6 15 * 86400

/-- A recurring-series occurrence whose id decomposes to base id
`occ1`. -/
def rowOcc : Row :=
  { rowCal1 with
      id := "occ1_20251201T150000".toList
      start_time := some "2025-12-01T15:00:00+00:00".toList }

/-- An unrelated plain event in the same window. -/
def rowPlain : Row :=
  { rowCal1 with
      id := "other1".toList
      start_time := some "2025-12-02T10:00:00+00:00".toList }

/-- Store holding the occurrence and the plain event, nothing
suppressed. -/
def occStore : Store :=
  { appointments := [rowOcc, rowPlain], ignored_base := [], ignored_events := [] }

/-- Query instant 2025-12-01T00:00:00Z. -/
def nowDec : Int := daysFromCivil 2025 12 1 * 86400

/-- First fresh-insert candidate of the failure scenario. -/
def candA : Candidate :=
  { candCal1 with id := some "p1".toList, subject := some "A".toList, source := none }

/-- Second fresh-insert candidate of the failure scenario. -/
def candB : Candidate :=
  { candCal1 with id := some "p2".toList, subject := some "B".toList, source := none }

/-! ### Claim theorems -/

/-- Claim C7: `get_base_id_from_event_id` strips a trailing
`_YYYYMMDDTHHMMSS` suffix — the part after the last underscore being
exactly 15 characters (8 digits, `T`, 6 digits) — returning the
remainder, and returns the id unchanged when no such suffix is present
(`specBaseId` is that characterization spelled out); in particular
`series1_20251201T150000 ↦ series1`, `plainevent ↦ plainevent`,
`abc_def ↦ abc_def`. -/
theorem claim_C7 :
    (∀ event_id : Str, get_base_id_from_event_id event_id = specBaseId event_id) ∧
      get_base_id_from_event_id "series1_20251201T150000".toList = "series1".toList ∧
      get_base_id_from_event_id "plainevent".toList = "plainevent".toList ∧
      get_base_id_from_event_id "abc_def".toList = "abc_def".toList :=
  ⟨get_base_id_eq_specBaseId, by decide, by decide, by decide⟩

/-- Claim C10: `find_duplicate` is total (it is a Lean function — the
source's `try/except` maps every internal failure to `None`), and its
result is either `none` or the id of a stored row that is never the
excluded id. -/
theorem claim_C10 (db : List Row) (subject start_time organizer_email source : Str)
    (exclude_id : Option Str) :
    find_duplicate db subject start_time organizer_email source exclude_id = none ∨
      ∃ r ∈ db,
        find_duplicate db subject start_time organizer_email source exclude_id = some r.id ∧
          exclude_id ≠ some r.id := by
  cases hres : find_duplicate db subject start_time organizer_email source exclude_id with
  | none => exact Or.inl rfl
  | some rid =>
    right
    have hres' := hres
    unfold find_duplicate at hres'
    cases hp : parse_iso_datetime start_time with
    | none =>
      simp only [hp] at hres'
      exact absurd hres' (by simp)
    | some dt =>
      simp only [hp] at hres'
      obtain ⟨r, hrf, hid, hex⟩ := findDupScan_sound _ _ _ _ _ hres'
      refine ⟨r, (List.mem_filter.1 hrf).1, ?_, hex⟩
      exact congrArg some hid

/-- Claim C9: every row surviving a `save_appointments` batch either
keeps the id and `created_at` of a pre-existing row, or is a fresh
insert with `created_at = updated_at = now`; and every row is either
untouched or carries `updated_at = now` — updates never change `id` or
`created_at`, and `created_at` is assigned only at insert, where it
equals `updated_at`. -/
theorem claim_C9 (db : List Row) (rules : DedupRules) (nowS : Str)
    (appointments : List Candidate) :
    (∀ r' ∈ (save_appointments db rules nowS appointments).1,
        (∃ r ∈ db, r.id = r'.id ∧ r.created_at = r'.created_at) ∨
          (r'.created_at = some nowS ∧ r'.updated_at = some nowS)) ∧
      ∀ r' ∈ (save_appointments db rules nowS appointments).1,
        r' ∈ db ∨ r'.updated_at = some nowS :=
  saveLoopP_frameInv rules nowS appointments db

/-- Claim C6 (amended): every event returned by `query_events` has
non-null `location`, `organizer_email`, `organizer_name`, `attendees`,
`body_preview` and `source` (with `attendees` never the empty string);
`subject`, `start_time`, `end_time` and `is_all_day` are passed through
as stored. -/
theorem claim_C6_amended (st : Store) (now : Int) (days_back days_ahead : Nat)
    (source : Option Str) (e : OutEvent)
    (he : e ∈ query_events st now days_back days_ahead source) :
    e.location ≠ none ∧ e.organizer_email ≠ none ∧ e.organizer_name ≠ none ∧
      e.attendees ≠ none ∧ e.body_preview ≠ none ∧ e.source ≠ none ∧
      e.attendees ≠ some [] := by
  simp only [query_events] at he
  obtain ⟨r, _, rfl⟩ := List.mem_map.1 he
  refine ⟨by simp [toOut], by simp [toOut], by simp [toOut], by simp [toOut],
    by simp [toOut], by simp [toOut], ?_⟩
  intro hcontra
  exact pyOr_ne_nil r.attendees ('[' :: [']']) (by simp) (Option.some.inj hcontra)

/-- Claim C8: after `add_ignored_base_id b`, no event whose derived base
id is `b` is returned by `query_events`; rows whose full id is in the
occurrence-suppression set are never returned; and after a subsequent
`remove_ignored_base_id b`, a stored occurrence with base id `b` that
passes the date window and is not occurrence-suppressed is returned
again. -/
theorem claim_C8 :
    (∀ (st : Store) (b subj reason nowS : Str) (now : Int)
        (days_back days_ahead : Nat) (source : Option Str) (e : OutEvent),
        e ∈ query_events (add_ignored_base_id st b subj reason nowS)
            now days_back days_ahead source →
        get_base_id_from_event_id e.id ≠ b) ∧
      (∀ (st : Store) (now : Int) (days_back days_ahead : Nat)
          (source : Option Str) (e : OutEvent),
          e ∈ query_events st now days_back days_ahead source →
          (st.ignored_events.map (fun i => i.event_id)).contains e.id = false) ∧
      ∀ (st : Store) (b subj reason nowS : Str) (now : Int)
          (days_back days_ahead : Nat) (r : Row),
          r ∈ st.appointments →
          get_base_id_from_event_id r.id = b →
          (st.ignored_events.map (fun i => i.event_id)).contains r.id = false →
          rowInRange (windowStart now days_back) (windowEnd now days_ahead) r = true →
          ∃ e ∈ query_events (remove_ignored_base_id (add_ignored_base_id st b subj reason nowS) b)
              now days_back days_ahead none, e.id = r.id := by
  refine ⟨?_, ?_, ?_⟩
  · intro st b subj reason nowS now days_back days_ahead source e he
    simp only [query_events] at he
    obtain ⟨r, hrv, rfl⟩ := List.mem_map.1 he
    have hpred := (List.mem_filter.1 hrv).2
    rw [Bool.and_eq_true] at hpred
    have hB : ((add_ignored_base_id st b subj reason nowS).ignored_base.map
        (fun en => en.base_id)).contains (get_base_id_from_event_id r.id) = false := by
      have hx := hpred.2
      rwa [Bool.not_eq_true'] at hx
    intro hEq
    have hid : (toOut r).id = r.id := rfl
    rw [hid] at hEq
    have hmem : b ∈ ((add_ignored_base_id st b subj reason nowS).ignored_base.map
        (fun en => en.base_id)) := by
      simp [add_ignored_base_id]
    have hcont : ((add_ignored_base_id st b subj reason nowS).ignored_base.map
        (fun en => en.base_id)).contains b = true := List.elem_iff.2 hmem
    rw [hEq, hcont] at hB
    cases hB
  · intro st now days_back days_ahead source e he
    simp only [query_events] at he
    obtain ⟨r, hrv, rfl⟩ := List.mem_map.1 he
    have hpred := (List.mem_filter.1 hrv).2
    rw [Bool.and_eq_true] at hpred
    have hx := hpred.1
    rwa [Bool.not_eq_true'] at hx
  · intro st b subj reason nowS now days_back days_ahead r hr hbase hign hrange
    have h1 : r ∈ (remove_ignored_base_id (add_ignored_base_id st b subj reason nowS)
        b).appointments.filter
        (fun r => rowInRange (windowStart now days_back) (windowEnd now days_ahead) r
          && srcPass none r) := by
      refine List.mem_filter.2 ⟨hr, ?_⟩
      rw [Bool.and_eq_true]
      exact ⟨hrange, by simp [srcPass, pyTO]⟩
    have h2 := (mem_insSort rowLe _ r).2 h1
    have hB' : ((remove_ignored_base_id (add_ignored_base_id st b subj reason nowS)
        b).ignored_base.map (fun en => en.base_id)).contains
          (get_base_id_from_event_id r.id) = false := by
      rw [hbase]
      by_contra hcon
      rw [Bool.not_eq_false] at hcon
      have hmem := List.elem_iff.1 hcon
      obtain ⟨en, hen, henb⟩ := List.mem_map.1 hmem
      have hen2 := (List.mem_filter.1 hen).2
      rw [decide_eq_true_eq] at hen2
      exact hen2 henb
    refine ⟨toOut r, ?_, rfl⟩
    simp only [query_events]
    refine List.mem_map.2 ⟨r, ?_, rfl⟩
    refine List.mem_filter.2 ⟨h2, ?_⟩
    rw [Bool.and_eq_true]
    exact ⟨by rw [Bool.not_eq_true']; exact hign, by rw [Bool.not_eq_true']; exact hB'⟩

/-- Claim C1 (counterexample): two candidates with the same subject and
start time, ids `e1`/`e2`, sources `cal1`/`cal2` of equal priority and
`skip_same_source = False` — the second candidate is NOT skipped: it is
counted as inserted and two rows exist afterwards. -/
theorem claim_C1_counterexample :
    (save_appointments [] tieRules nowW [candCal1, candCal2]).2.1 = 2 ∧
      ((save_appointments [] tieRules nowW [candCal1, candCal2]).1.map (fun r => r.id))
        = ["e1".toList, "e2".toList] :=
  ⟨rfl, rfl⟩

/-- Claim C1 (amended): in the precedence-tie scenario the second
candidate is inserted as a fresh row under its own id — the Duplicate
Finder searches only rows whose stored source equals the candidate's
source field, so the `cal1` row is never considered — and the final
state has both rows with counts `(2, 0)`. -/
theorem claim_C1_amended :
    save_appointments [] tieRules nowW [candCal1, candCal2]
      = ([newRow "e1".toList candCal1 nowW, newRow "e2".toList candCal2 nowW], 2, 0) :=
  rfl

/-- Claim C2 (counterexample): with a storage failure on the first
candidate's write, `save_appointments` propagates the error and the
remaining candidate is not processed (the rolled-back store is empty);
without the failure, the very same batch processes both candidates. -/
theorem claim_C2_counterexample :
    runSaveF [] plainRules nowW (fun k => k == 0) [candA, candB]
        = (Except.error (), []) ∧
      runSaveF [] plainRules nowW (fun _ => false) [candA, candB]
        = (Except.ok (2, 0), [newRow "p1".toList candA nowW, newRow "p2".toList candB nowW]) :=
  ⟨rfl, rfl⟩

/-- Claim C2 (amended): a storage failure during one candidate's write
aborts the batch — the error propagates to the caller, the candidates
after the failing prefix are never processed (they do not change the
outcome), and the transaction rolls back to the pre-batch store. -/
theorem claim_C2_amended (db : List Row) (rules : DedupRules) (nowS : Str)
    (oracle : Nat → Bool) (batch suffix : List Candidate)
    (h : saveLoopF rules nowS oracle db 0 batch = Except.error ()) :
    saveLoopF rules nowS oracle db 0 (batch ++ suffix) = Except.error () ∧
      runSaveF db rules nowS oracle (batch ++ suffix) = (Except.error (), db) := by
  have h2 := saveLoopF_append_error rules nowS oracle batch db 0 suffix h
  refine ⟨h2, ?_⟩
  unfold runSaveF
  rw [h2]

/-- Witness for the amended claim C2 at a concrete failing batch. -/
theorem claim_C2_amended_witness :
    saveLoopF plainRules nowW (fun k => k == 0) [] 0 ([candA] ++ [candB])
        = Except.error () ∧
      runSaveF [] plainRules nowW (fun k => k == 0) ([candA] ++ [candB])
        = (Except.error (), []) :=
  claim_C2_amended [] plainRules nowW (fun k => k == 0) [candA] [candB] rfl

/-- Claim C3 (counterexample): a candidate with empty source whose id is
new matches a stored empty-source record through the Duplicate Finder,
yet `save_appointments` skips it — no write, nothing counted — instead
of updating the duplicate in place. -/
theorem claim_C3_counterexample :
    find_duplicate [rowEmptySource] "Sync".toList "2025-03-03T09:00:00Z".toList [] []
        (some "x2".toList) = some "x1".toList ∧
      save_appointments [rowEmptySource] plainRules nowW [candEmptySource]
        = ([rowEmptySource], 0, 0) :=
  ⟨rfl, rfl⟩

/-- Claim C3 (amended): in the cross-source duplicate path, when the
batch-level source or the duplicate's stored source is absent/empty, the
candidate is skipped: the store is unchanged and nothing is counted (the
empty-source OVERWRITE default applies only in the exact-id path). -/
theorem claim_C3_amended (db : List Row) (rules : DedupRules) (nowS : Str) (c : Candidate)
    (eid dupId : Str)
    (hid : c.id = some eid) (hne : eid ≠ [])
    (hfind : db.find? (fun r => r.id = eid) = none)
    (hdup : find_duplicate db (c.subject.getD []) (c.start_time.getD [])
      (c.organizer_email.getD []) (c.source.getD []) (some eid) = some dupId)
    (hsrc : (pyT rules.source && pyTO (dupSourceOf db dupId)) = false) :
    processOne db rules nowS c = (db, 0, 0) := by
  unfold processOne
  simp only [hid, hfind, hdup, if_neg hne]
  rw [if_neg (by simp [hsrc])]

/-- Witness for the amended claim C3 at the concrete empty-source
scenario. -/
theorem claim_C3_amended_witness :
    processOne [rowEmptySource] plainRules nowW candEmptySource
      = ([rowEmptySource], 0, 0) :=
  claim_C3_amended [rowEmptySource] plainRules nowW candEmptySource
    "x2".toList "x1".toList rfl (by decide) rfl rfl rfl

/-- Claim C4 (code bug): a stored row whose `start_time` carries a
`-08:00` offset denotes the same instant as the candidate's
`2025-01-01T10:00:00Z` (UTC difference 0, under 60 seconds), shares the
candidate's subject, source and organizer and is not the excluded id —
yet `find_duplicate` returns `none`, because the coarse string-window
prefilter excludes it. -/
theorem claim_C4_bug :
    find_duplicate [rowPst] "Meet".toList "2025-01-01T10:00:00Z".toList [] "ics".toList
        (some "b2".toList) = none ∧
      rowPst.subject = some "Meet".toList ∧
      rowPst.source = some "ics".toList ∧
      rowPst.id ≠ "b2".toList ∧
      rowPst.organizer_email.getD [] = [] ∧
      (parse_iso_datetime "2025-01-01T10:00:00Z".toList).map normalize_to_utc
        = (parse_iso_datetime (rowPst.start_time.getD [])).map normalize_to_utc ∧
      (parse_iso_datetime "2025-01-01T10:00:00Z".toList).isSome = true :=
  ⟨rfl, rfl, rfl, by decide, rfl, rfl, rfl⟩

/-- Claim C5 (counterexample): a `cal2` candidate with strictly higher
priority than the stored `cal1` record for the same real event is
counted as an insert, its own id appears in the store, and the `cal1`
row survives unchanged — not an in-place update under the duplicate's
id. -/
theorem claim_C5_counterexample :
    (save_appointments [rowCal1] overrideRules nowW [candCal2]).2 = (1, 0) ∧
      ((save_appointments [rowCal1] overrideRules nowW [candCal2]).1.map (fun r => r.id))
        = ["e1".toList, "e2".toList] ∧
      rowCal1 ∈ (save_appointments [rowCal1] overrideRules nowW [candCal2]).1 :=
  ⟨rfl, rfl, by decide⟩

/-- Claim C5 (amended): a higher-priority `cal2` candidate never reaches
the `cal1` record through the Duplicate Finder (the search is scoped to
the candidate's own source field), so it is inserted as a new row and
the `cal1` record is unchanged; the in-place override — candidate's
values written under the duplicate's original id, counted as an update,
with `created_at` preserved — occurs only when the duplicate's stored
source equals the candidate's event-level source field while the
higher-priority batch source differs. -/
theorem claim_C5_amended :
    save_appointments [rowCal1] overrideRules nowW [candCal2]
        = ([rowCal1, newRow "e2".toList candCal2 nowW], 1, 0) ∧
      save_appointments [rowCal1] overrideRules nowW [candCal1Field]
        = ([updRow rowCal1 candCal1Field nowW], 0, 1) ∧
      (updRow rowCal1 candCal1Field nowW).id = "e1".toList ∧
      (updRow rowCal1 candCal1Field nowW).created_at = rowCal1.created_at :=
  ⟨rfl, rfl, rfl, rfl⟩

/-- Claim C6 (counterexample): a stored row with NULL `subject` and NULL
`is_all_day` inside the query window is returned by `query_events` with
those fields still null — they are not normalized on output. -/
theorem claim_C6_counterexample :
    (query_events nullSubjectStore nowJun 0 30 none).map (fun e => e.subject) = [none] ∧
      (query_events nullSubjectStore nowJun 0 30 none).map (fun e => e.is_all_day) = [none] :=
  ⟨rfl, rfl⟩

/-- Witness for the amended claim C6 at the null-subject store. -/
theorem claim_C6_amended_witness :
    (toOut rowNullSubject).location ≠ none ∧
      (toOut rowNullSubject).organizer_email ≠ none ∧
      (toOut rowNullSubject).organizer_name ≠ none ∧
      (toOut rowNullSubject).attendees ≠ none ∧
      (toOut rowNullSubject).body_preview ≠ none ∧
      (toOut rowNullSubject).source ≠ none ∧
      (toOut rowNullSubject).attendees ≠ some [] :=
  claim_C6_amended nullSubjectStore nowJun 0 30 none (toOut rowNullSubject) (by decide)

/-- Witness for claim C8 at a concrete store: a surviving event's base
id differs from the suppressed one, occurrence suppression is respected,
and the suppressed-then-restored occurrence is returned again. -/
theorem claim_C8_witness :
    get_base_id_from_event_id (toOut rowPlain).id ≠ "occ1".toList ∧
      (occStore.ignored_events.map (fun i => i.event_id)).contains (toOut rowOcc).id
          = false ∧
      ∃ e ∈ query_events (remove_ignored_base_id
          (add_ignored_base_id occStore "occ1".toList "X".toList "u".toList nowW)
          "occ1".toList) nowDec 0 30 none, e.id = rowOcc.id :=
  ⟨claim_C8.1 occStore "occ1".toList "X".toList "u".toList nowW nowDec 0 30 none
      (toOut rowPlain) (by decide),
   claim_C8.2.1 occStore nowDec 0 30 none (toOut rowOcc) (by decide),
   claim_C8.2.2 occStore "occ1".toList "X".toList "u".toList nowW nowDec 0 30 rowOcc
      (by decide) (by decide) (by decide) (by decide)⟩

/-- Witness for claim C9 at a concrete insert. -/
theorem claim_C9_witness :
    (∃ r ∈ ([] : List Row), r.id = (newRow "p1".toList candA nowW).id ∧
        r.created_at = (newRow "p1".toList candA nowW).created_at) ∨
      ((newRow "p1".toList candA nowW).created_at = some nowW ∧
        (newRow "p1".toList candA nowW).updated_at = some nowW) :=
  (claim_C9 [] plainRules nowW [candA]).1 (newRow "p1".toList candA nowW) (by decide)

end LifeSynced
